import Mathlib

/-!
Verification of `migrate_db.py`: a script that creates a staging PostgreSQL
database, copies the schema of a production database into it, and then copies
the rows of the tables `account`, `address` and `statement`, redacting PII
columns on the way.

The embedding below follows the source closely:
* `call_process` models the subprocess wrapper (returns `true` iff the
  spawned process wrote nothing to stderr; the exit code is ignored).
* `redact` models the Python function `redact(row, *columns)`, including
  Python's negative-index semantics for `new_row[i] = 'REDACTED'` and the
  `IndexError` (modelled as `none`) on out-of-range indices.
* `copyRow` / `copyTable` / `runCopy` / `migrateCopy` model the data-copy
  loop of `migrate_db`, including the fact that the loop variable `new_row`
  is only assigned for the tables `account` and `address` and is therefore
  stale (or unbound) when the `statement` table is processed, and the fact
  that commit and the two `close()` calls happen only after the loop, with
  no exception handling.
* `setupPhase` models the three `call_process` invocations (createdb,
  pg_dump --schema-only, pg_restore) that precede the data copy, with the
  `sys.exit(1)` fail-fast branches.
-/

/-- A SQL column value, as it appears in a fetched row. -/
inductive Val where
  | str : String → Val
  | int : Int → Val
  | null : Val
deriving DecidableEq, Repr

/-- The fixed sentinel the source writes into redacted columns. -/
def SENTINEL : Val := Val.str "REDACTED"

/-- A SQL table row, `row` in the source: an ordered sequence of values. -/
abbrev Row := List Val

/-- Python list-subscript semantics for a list of length `L`: a nonnegative
index `i` is valid iff `i < L`; a negative index `i` is valid iff `-L ≤ i`
and then denotes position `L + i`.  `none` models `IndexError`. -/
def effIdx (L : Nat) (i : Int) : Option Nat :=
  if 0 ≤ i then
    if i < (L : Int) then some i.toNat else none
  else
    if -(L : Int) ≤ i then some (L - (-i).toNat) else none

/-- Python `l[i] = v` on a list: assign at the effective index, or fail. -/
def pyListSet (l : List Val) (i : Int) (v : Val) : Option (List Val) :=
  match effIdx l.length i with
  | some e => some (l.set e v)
  | none => none

/-- `redact(row, *columns)` from the source: copy the row into a fresh list,
then assign `'REDACTED'` at each listed column in order; the first
out-of-range column raises `IndexError` (modelled as `none`). -/
def redact (row : Row) (columns : List Int) : Option Row :=
  match columns with
  | [] => some row
  | i :: rest =>
    match pyListSet row i SENTINEL with
    | some row2 => redact row2 rest
    | none => none

lemma effIdx_lt {L : Nat} {i : Int} {e : Nat} (h : effIdx L i = some e) :
    e < L := by
  unfold effIdx at h
  split at h
  · split at h
    · rename_i h0 h1
      have : i.toNat < L := by omega
      simp only [Option.some.injEq] at h
      omega
    · exact absurd h (by simp)
  · split at h
    · rename_i h0 h1
      simp only [Option.some.injEq] at h
      have hpos : 1 ≤ (-i).toNat := by omega
      have hle : (-i).toNat ≤ L := by omega
      omega
    · exact absurd h (by simp)

lemma effIdx_none_iff {L : Nat} {i : Int} :
    effIdx L i = none ↔ (i < -(L : Int) ∨ (L : Int) ≤ i) := by
  unfold effIdx
  split <;> split <;> simp <;> omega

lemma effIdx_nat {L p : Nat} (h : p < L) : effIdx L (p : Int) = some p := by
  unfold effIdx
  have h0 : (0 : Int) ≤ (p : Int) := by omega
  have h1 : (p : Int) < (L : Int) := by exact_mod_cast h
  simp [h0, h1]

lemma pyListSet_length {l m : List Val} {i : Int} {v : Val}
    (h : pyListSet l i v = some m) : m.length = l.length := by
  unfold pyListSet at h
  split at h
  · simp only [Option.some.injEq] at h
    subst h
    simp
  · exact absurd h (by simp)

lemma redact_length {row r : Row} {cs : List Int}
    (h : redact row cs = some r) : r.length = row.length := by
  induction cs generalizing row with
  | nil =>
    simp only [redact, Option.some.injEq] at h
    subst h; rfl
  | cons i rest ih =>
    simp only [redact] at h
    split at h
    · rename_i row2 hset
      have := pyListSet_length hset
      have := ih h
      omega
    · exact absurd h (by simp)

lemma pyListSet_eq {l : List Val} {i : Int} {v : Val} {m : List Val}
    (h : pyListSet l i v = some m) :
    ∃ e, effIdx l.length i = some e ∧ m = l.set e v := by
  unfold pyListSet at h
  split at h
  · rename_i e he
    simp only [Option.some.injEq] at h
    exact ⟨e, he, h.symm⟩
  · exact absurd h (by simp)

lemma pyListSet_none_iff {l : List Val} {i : Int} {v : Val} :
    pyListSet l i v = none ↔ (i < -(l.length : Int) ∨ (l.length : Int) ≤ i) := by
  unfold pyListSet
  rw [← effIdx_none_iff (L := l.length) (i := i)]
  split <;> simp_all

lemma list_set_self {l : List Val} {e : Nat} {v : Val}
    (h : l[e]? = some v) : l.set e v = l := by
  apply List.ext_getElem?
  intro n
  rw [List.getElem?_set]
  split
  · rename_i hen
    subst hen
    split
    · exact h.symm
    · rename_i hlt
      rw [List.getElem?_eq_none (by omega)]
  · rfl

/-- Helper for the redaction-correctness claim: on a list of valid
nonnegative positions, `redact` succeeds, preserves the length, writes the
sentinel at each listed position and leaves every other position unchanged. -/
lemma redact_spec_aux (row : Row) (ps : List Nat)
    (hv : ∀ p ∈ ps, p < row.length) :
    ∃ r, redact row (ps.map (fun p => (p : Int))) = some r ∧
      r.length = row.length ∧
      (∀ i ∈ ps, r[i]? = some SENTINEL) ∧
      (∀ i : Nat, i ∉ ps → r[i]? = row[i]?) := by
  induction ps generalizing row with
  | nil =>
    exact ⟨row, rfl, rfl, by simp, fun i _ => rfl⟩
  | cons p rest ih =>
    have hp : p < row.length := hv p (by simp)
    have hset : pyListSet row (p : Int) SENTINEL = some (row.set p SENTINEL) := by
      unfold pyListSet
      rw [effIdx_nat hp]
    have hv2 : ∀ q ∈ rest, q < (row.set p SENTINEL).length := by
      intro q hq
      rw [List.length_set]
      exact hv q (by simp [hq])
    obtain ⟨r, hr, hlen, hin, hout⟩ := ih (row.set p SENTINEL) hv2
    refine ⟨r, ?_, ?_, ?_, ?_⟩
    · simp only [List.map_cons, redact, hset]
      exact hr
    · rw [hlen, List.length_set]
    · intro i hi
      rcases List.mem_cons.mp hi with hip | hirest
      · subst hip
        by_cases hmem : i ∈ rest
        · exact hin i hmem
        · rw [hout i hmem, List.getElem?_set_self hp]
      · exact hin i hirest
    · intro i hi
      have hip : i ≠ p := fun h => hi (h ▸ List.mem_cons_self p rest)
      have hirest : i ∉ rest := fun h => hi (List.mem_cons_of_mem p h)
      rw [hout i hirest, List.getElem?_set_ne (Ne.symm hip)]

/-- Helper: `redact` fails exactly when some listed column is outside the
Python-valid index range `[-L, L)` for the row length `L`. -/
lemma redact_none_iff (row : Row) (cs : List Int) :
    redact row cs = none ↔
      ∃ p ∈ cs, p < -(row.length : Int) ∨ (row.length : Int) ≤ p := by
  induction cs generalizing row with
  | nil => simp [redact]
  | cons i rest ih =>
    simp only [redact]
    cases hset : pyListSet row i SENTINEL with
    | none =>
      have hout := pyListSet_none_iff.mp hset
      simp only [List.mem_cons]
      constructor
      · intro _
        exact ⟨i, Or.inl rfl, hout⟩
      · intro _
        trivial
    | some row2 =>
      have hlen : row2.length = row.length := pyListSet_length hset
      have hiok : ¬(i < -(row.length : Int) ∨ (row.length : Int) ≤ i) := by
        intro hcon
        rw [pyListSet_none_iff.mpr hcon] at hset
        exact absurd hset (by simp)
      rw [ih row2]
      rw [hlen]
      simp only [List.mem_cons]
      constructor
      · rintro ⟨p, hp, hpo⟩
        exact ⟨p, Or.inr hp, hpo⟩
      · rintro ⟨p, hp | hp, hpo⟩
        · subst hp
          exact absurd hpo hiok
        · exact ⟨p, hp, hpo⟩

lemma redact_preserves_sentinel {row r : Row} {cs : List Int} {j : Nat}
    (h : redact row cs = some r) (hj : row[j]? = some SENTINEL) :
    r[j]? = some SENTINEL := by
  induction cs generalizing row with
  | nil =>
    simp only [redact, Option.some.injEq] at h
    subst h
    exact hj
  | cons i rest ih =>
    simp only [redact] at h
    split at h
    · rename_i row2 hset
      obtain ⟨e, he, hrow2⟩ := pyListSet_eq hset
      have helt : e < row.length := effIdx_lt he
      refine ih h ?_
      subst hrow2
      rw [List.getElem?_set]
      split
      · rename_i hej
        subst hej
        simp [helt]
      · exact hj
    · exact absurd h (by simp)

/-- Helper: applying `redact` to its own output with the same columns is a
no-op: the output is a fixed point. -/
lemma redact_idem_aux {row r : Row} {cs : List Int}
    (h : redact row cs = some r) : redact r cs = some r := by
  induction cs generalizing row with
  | nil =>
    simp only [redact, Option.some.injEq] at h
    subst h
    rfl
  | cons i rest ih =>
    simp only [redact] at h
    split at h
    · rename_i row2 hset
      obtain ⟨e, he, hrow2⟩ := pyListSet_eq hset
      have helt : e < row.length := effIdx_lt he
      have hlen2 : row2.length = row.length := pyListSet_length hset
      have hlenr : r.length = row.length := (redact_length h).trans hlen2
      have hrow2e : row2[e]? = some SENTINEL := by
        subst hrow2
        exact List.getElem?_set_self helt
      have hre : r[e]? = some SENTINEL := redact_preserves_sentinel h hrow2e
      have hsetr : pyListSet r i SENTINEL = some r := by
        unfold pyListSet
        rw [hlenr, he]
        show some (r.set e SENTINEL) = some r
        rw [list_set_self hre]
      simp only [redact, hsetr]
      exact ih h
    · exact absurd h (by simp)

/-- The three tables of the fixed migration set, in the order the source
iterates them: `for db in ['account', 'address', 'statement']`. -/
inductive Tbl where
  | account
  | address
  | statement
deriving DecidableEq, Repr

/-- The production (source) database: the rows of each table in the
migration set, in the order `fetchall` returns them. -/
structure ProdDB where
  account : List Row
  address : List Row
  statement : List Row
deriving DecidableEq, Repr

/-- Rows of one table of the source database. -/
def ProdDB.rowsOf (db : ProdDB) : Tbl → List Row
  | Tbl.account => db.account
  | Tbl.address => db.address
  | Tbl.statement => db.statement

/-- A Python exception escaping the copy loop: `NameError` when `new_row`
is referenced before any assignment, `IndexError` from `redact`, or a
database error raised by an `INSERT`. -/
inductive MigErr where
  | nameError
  | indexError
  | writeError
deriving DecidableEq, Repr

/-- The mutable state of the copy loop: the current value of the variable
`new_row` (which outlives each iteration and each table), the number of
`INSERT` statements executed so far, and the inserts accepted by the
destination so far (table, row), in order. -/
structure CopyState where
  carried : Option Row
  nIns : Nat
  trace : List (Tbl × Row)
deriving DecidableEq, Repr

/-- The value the variable `new_row` holds when the `INSERT` for one source
row is built: the source assigns it only for `account` (redact column 1)
and `address` (redact column 2); for `statement` it keeps whatever value it
had, and raises `NameError` if it was never assigned. -/
def newRowFor (t : Tbl) (carried : Option Row) (row : Row) : Except MigErr Row :=
  match t with
  | Tbl.account =>
    match redact row [1] with
    | some r => Except.ok r
    | none => Except.error MigErr.indexError
  | Tbl.address =>
    match redact row [2] with
    | some r => Except.ok r
    | none => Except.error MigErr.indexError
  | Tbl.statement =>
    match carried with
    | some r => Except.ok r
    | none => Except.error MigErr.nameError

/-- One iteration of the inner loop: compute `new_row`, then execute the
`INSERT`.  `failAt = some k` injects a database error on the `k`-th insert
(0-based), modelling a row-write failure. -/
def copyRow (failAt : Option Nat) (t : Tbl) (s : CopyState) (row : Row) :
    CopyState × Option MigErr :=
  match newRowFor t s.carried row with
  | Except.error e => (s, some e)
  | Except.ok nr =>
    if failAt = some s.nIns then
      ({ s with carried := some nr }, some MigErr.writeError)
    else
      (⟨some nr, s.nIns + 1, s.trace ++ [(t, nr)]⟩, none)

/-- The inner loop over the fetched rows of one table; the first exception
aborts the loop (and, in the source, the whole function). -/
def copyTable (failAt : Option Nat) (t : Tbl) (rows : List Row) (s : CopyState) :
    CopyState × Option MigErr :=
  match rows with
  | [] => (s, none)
  | r :: rest =>
    match copyRow failAt t s r with
    | (s2, some e) => (s2, some e)
    | (s2, none) => copyTable failAt t rest s2

/-- The outer loop of `migrate_db` over `['account', 'address', 'statement']`,
starting with `new_row` unbound, no inserts executed, and an empty
destination. -/
def runCopy (failAt : Option Nat) (db : ProdDB) : CopyState × Option MigErr :=
  match copyTable failAt Tbl.account db.account ⟨none, 0, []⟩ with
  | (s1, some e) => (s1, some e)
  | (s1, none) =>
    match copyTable failAt Tbl.address db.address s1 with
    | (s2, some e) => (s2, some e)
    | (s2, none) => copyTable failAt Tbl.statement db.statement s2

/-- Observable outcome of one run of the data-copy phase of `migrate_db`:
the escaped exception if any, the inserts the destination accepted, how
often `commit()` and `rollback()` were called, and whether each session's
`close()` ran. -/
structure RunResult where
  error : Option MigErr
  trace : List (Tbl × Row)
  commits : Nat
  rollbacks : Nat
  srcClosed : Bool
  dstClosed : Bool
deriving DecidableEq, Repr

/-- The data-copy phase of `migrate_db` as written: the loop runs with no
exception handling; `staging_conn.commit()`, `staging_conn.close()` and
`prod_conn.close()` execute only if the loop finishes, and an exception
skips all three (`rollback()` is never called anywhere). -/
def migrateCopy (failAt : Option Nat) (db : ProdDB) : RunResult :=
  match runCopy failAt db with
  | (s, some e) => ⟨some e, s.trace, 0, 0, false, false⟩
  | (s, none) => ⟨none, s.trace, 1, 0, true, true⟩

/-- Rows of one destination table visible after the run: inserts become
durable only through `commit()`; a run that never commits leaves the
uncommitted transaction to be discarded, so nothing is visible. -/
def visibleRows (r : RunResult) (t : Tbl) : List Row :=
  if r.commits = 0 then []
  else (r.trace.filter (fun p => decide (p.1 = t))).map (fun p => p.2)

/-- Result of spawning one subprocess, as `communicate()` reports it. -/
structure ProcResult where
  exitCode : Int
  stdout : String
  stderr : String
deriving DecidableEq, Repr

/-- `call_process` from the source: `if err: return False` / `return True`
— success is decided solely by whether the error stream is empty; the
subprocess exit status is never consulted. -/
def call_process (p : ProcResult) : Bool :=
  if p.stderr ≠ "" then false else true

/-- External steps of the setup phase, in order of possible occurrence. -/
inductive SetupStep where
  | createdb
  | pgDump
  | pgRestore
  | openDest
  | openSrc
deriving DecidableEq, Repr

/-- Steps that touch the destination: the `createdb` call, the schema
restore into the destination, and opening the destination session.
(`pg_dump` only reads the source and writes a local file.) -/
def isDestEffect : SetupStep → Bool
  | SetupStep.createdb => true
  | SetupStep.pgRestore => true
  | SetupStep.openDest => true
  | _ => false

/-- Observable outcome of the setup phase preceding the data copy. -/
structure SetupResult where
  effects : List SetupStep
  prints : List String
  exitCode : Option Nat
  destOpened : Bool
  srcOpened : Bool
deriving DecidableEq, Repr

/-- The setup phase of `migrate_db` as written: `createdb`, then
`pg_dump --schema-only`, then `pg_restore`, each guarded by
`if not call_process(...): print(...); sys.exit(1)`; only after all three
succeed are the staging (destination) and production (source) sessions
opened, in that order. -/
def setupPhase (pCreate pDump pRestore : ProcResult) : SetupResult :=
  if ¬ call_process pCreate then
    ⟨[SetupStep.createdb], ["Error creating database, exiting..."], some 1, false, false⟩
  else if ¬ call_process pDump then
    ⟨[SetupStep.createdb, SetupStep.pgDump],
      ["Error dumping schemas, exiting..."], some 1, false, false⟩
  else if ¬ call_process pRestore then
    ⟨[SetupStep.createdb, SetupStep.pgDump, SetupStep.pgRestore],
      ["Error loading schemas, exiting..."], some 1, false, false⟩
  else
    ⟨[SetupStep.createdb, SetupStep.pgDump, SetupStep.pgRestore,
      SetupStep.openDest, SetupStep.openSrc], [], none, true, true⟩

lemma copyRow_ok {f : Option Nat} {t : Tbl} {s : CopyState} {r : Row} {s2 : CopyState}
    (h : copyRow f t s r = (s2, none)) :
    ∃ nr, newRowFor t s.carried r = Except.ok nr ∧
      s2 = ⟨some nr, s.nIns + 1, s.trace ++ [(t, nr)]⟩ := by
  unfold copyRow at h
  cases hn : newRowFor t s.carried r with
  | error e =>
    rw [hn] at h
    simp at h
  | ok nr =>
    rw [hn] at h
    simp only [] at h
    split at h
    · simp at h
    · simp only [Prod.mk.injEq] at h
      exact ⟨nr, rfl, h.1.symm⟩

lemma newRowFor_address_ok {c : Option Row} {r nr : Row}
    (h : newRowFor Tbl.address c r = Except.ok nr) :
    redact r [2] = some nr := by
  simp only [newRowFor] at h
  split at h <;> simp_all

lemma newRowFor_statement_ok {c : Option Row} {r nr : Row}
    (h : newRowFor Tbl.statement c r = Except.ok nr) :
    c = some nr := by
  simp only [newRowFor] at h
  split at h <;> simp_all

/-- Helper: a table copy that finishes without an exception appends exactly
one insert per source row, all labelled with that table. -/
lemma copyTable_ok {f : Option Nat} {t : Tbl} {rows : List Row}
    {s s' : CopyState} (h : copyTable f t rows s = (s', none)) :
    ∃ ext, s'.trace = s.trace ++ ext ∧ ext.length = rows.length ∧
      ∀ p ∈ ext, p.1 = t := by
  induction rows generalizing s with
  | nil =>
    simp only [copyTable, Prod.mk.injEq] at h
    refine ⟨[], ?_, rfl, by simp⟩
    rw [← h.1]
    simp
  | cons r rest ih =>
    simp only [copyTable] at h
    rcases hcr : copyRow f t s r with ⟨s2, oe2⟩
    rw [hcr] at h
    cases oe2 with
    | some e => simp at h
    | none =>
      obtain ⟨nr, _, hs2⟩ := copyRow_ok hcr
      obtain ⟨ext2, htr, hlen, hmem⟩ := ih h
      refine ⟨(t, nr) :: ext2, ?_, by simp [hlen], ?_⟩
      · rw [htr, hs2]
        simp
      · intro p hp
        rcases List.mem_cons.mp hp with hp | hp
        · rw [hp]
        · exact hmem p hp

/-- Helper: copying the `statement` table never reassigns `new_row`; with a
stale value `c` carried in, every insert it performs is `(statement, c)`. -/
lemma copyTable_statement_stale {f : Option Nat} {rows : List Row}
    {s s' : CopyState} {c : Row}
    (h : copyTable f Tbl.statement rows s = (s', none)) (hc : s.carried = some c) :
    s'.trace = s.trace ++ rows.map (fun _ => (Tbl.statement, c)) ∧
      s'.carried = some c := by
  induction rows generalizing s with
  | nil =>
    simp only [copyTable, Prod.mk.injEq] at h
    rw [← h.1]
    simp [hc]
  | cons r rest ih =>
    simp only [copyTable] at h
    rcases hcr : copyRow f Tbl.statement s r with ⟨s2, oe2⟩
    rw [hcr] at h
    cases oe2 with
    | some e => simp at h
    | none =>
      obtain ⟨nr, hnr, hs2⟩ := copyRow_ok hcr
      rw [hc] at hnr
      have hcnr : nr = c := by
        have := newRowFor_statement_ok hnr
        simp only [Option.some.injEq] at this
        exact this.symm
      subst hcnr
      have hc2 : s2.carried = some nr := by rw [hs2]
      obtain ⟨htr, hcar⟩ := ih h hc2
      constructor
      · rw [htr, hs2]
        simp
      · exact hcar

/-- Helper: after a successful copy of the `address` table, `new_row` holds
the redaction of the last fetched `address` row (or is untouched when the
table is empty). -/
lemma copyTable_address_carried {f : Option Nat} {rows : List Row}
    {s s' : CopyState} (h : copyTable f Tbl.address rows s = (s', none)) :
    (rows = [] → s'.carried = s.carried) ∧
    (∀ l, rows.getLast? = some l →
      ∃ red, redact l [2] = some red ∧ s'.carried = some red) := by
  induction rows generalizing s with
  | nil =>
    simp only [copyTable, Prod.mk.injEq] at h
    constructor
    · intro _
      rw [← h.1]
    · intro l hl
      simp at hl
  | cons r rest ih =>
    simp only [copyTable] at h
    rcases hcr : copyRow f Tbl.address s r with ⟨s2, oe2⟩
    rw [hcr] at h
    cases oe2 with
    | some e => simp at h
    | none =>
      obtain ⟨nr, hnr, hs2⟩ := copyRow_ok hcr
      have hred : redact r [2] = some nr := newRowFor_address_ok hnr
      constructor
      · intro hcon
        exact absurd hcon (by simp)
      · intro l hl
        cases rest with
        | nil =>
          simp only [copyTable, Prod.mk.injEq] at h
          simp only [List.getLast?_singleton, Option.some.injEq] at hl
          subst hl
          refine ⟨nr, hred, ?_⟩
          rw [← h.1, hs2]
        | cons r2 rest2 =>
          rw [List.getLast?_cons_cons] at hl
          exact (ih h).2 l hl

/-- Helper: decomposition of a fully successful run of the copy loop into
its three successful table copies. -/
lemma runCopy_ok {f : Option Nat} {db : ProdDB} {s' : CopyState}
    (h : runCopy f db = (s', none)) :
    ∃ s1 s2, copyTable f Tbl.account db.account ⟨none, 0, []⟩ = (s1, none) ∧
      copyTable f Tbl.address db.address s1 = (s2, none) ∧
      copyTable f Tbl.statement db.statement s2 = (s', none) := by
  unfold runCopy at h
  split at h
  next s1 e heq => simp at h
  next s1 heq =>
    split at h
    next s2 e heq2 => simp at h
    next s2 heq2 => exact ⟨s1, s2, heq, heq2, h⟩

/-- Helper: a run either escapes with an exception — then nothing was
committed, nothing rolled back and nothing closed — or finishes the loop —
then it commits once and closes both sessions. -/
lemma migrateCopy_cases (f : Option Nat) (db : ProdDB) :
    (∃ s e, runCopy f db = (s, some e) ∧
      migrateCopy f db = ⟨some e, s.trace, 0, 0, false, false⟩) ∨
    (∃ s, runCopy f db = (s, none) ∧
      migrateCopy f db = ⟨none, s.trace, 1, 0, true, true⟩) := by
  unfold migrateCopy
  rcases hr : runCopy f db with ⟨s, oe⟩
  cases oe with
  | some e => exact Or.inl ⟨s, e, rfl, rfl⟩
  | none => exact Or.inr ⟨s, rfl, rfl⟩

/-- Helper: length of the per-table filter of an insert block whose labels
are all one table. -/
lemma filter_label_length {ext : List (Tbl × Row)} {t u : Tbl}
    (h : ∀ p ∈ ext, p.1 = t) :
    (ext.filter (fun p => decide (p.1 = u))).length =
      if t = u then ext.length else 0 := by
  induction ext with
  | nil => simp
  | cons a l ih =>
    have ha : a.1 = t := h a (by simp)
    have hl : ∀ p ∈ l, p.1 = t := fun p hp => h p (List.mem_cons_of_mem a hp)
    rw [List.filter_cons]
    by_cases htu : t = u
    · subst htu
      simp [ha, ih hl]
    · have : ¬(a.1 = u) := by rw [ha]; exact htu
      simp [this, ih hl, htu]

lemma filter_label_ne {ext : List (Tbl × Row)} {t u : Tbl}
    (h : ∀ p ∈ ext, p.1 = t) (hne : t ≠ u) :
    ext.filter (fun p => decide (p.1 = u)) = [] := by
  rw [List.filter_eq_nil_iff]
  intro p hp
  simp [h p hp, hne]

lemma filter_label_all {ext : List (Tbl × Row)} {u : Tbl}
    (h : ∀ p ∈ ext, p.1 = u) :
    ext.filter (fun p => decide (p.1 = u)) = ext := by
  rw [List.filter_eq_self]
  intro p hp
  simp [h p hp]

/-- Helper: per-table insert counts of a fully successful run match the
source row counts. -/
lemma runCopy_counts {f : Option Nat} {db : ProdDB} {s' : CopyState}
    (h : runCopy f db = (s', none)) (u : Tbl) :
    (s'.trace.filter (fun p => decide (p.1 = u))).length =
      (db.rowsOf u).length := by
  obtain ⟨s1, s2, h1, h2, h3⟩ := runCopy_ok h
  obtain ⟨e1, t1, l1, m1⟩ := copyTable_ok h1
  obtain ⟨e2, t2, l2, m2⟩ := copyTable_ok h2
  obtain ⟨e3, t3, l3, m3⟩ := copyTable_ok h3
  rw [t3, t2, t1]
  simp only [List.filter_append, List.length_append]
  rw [filter_label_length m1, filter_label_length m2, filter_label_length m3,
    l1, l2, l3]
  cases u <;> simp [ProdDB.rowsOf]

/-- Claim C1: for every row of length `L` and every list of positions that
are all valid zero-based indices into the row, `redact(row, positions)`
returns a row of the same length `L` in which every listed index holds the
sentinel `'REDACTED'` and every other index holds exactly the original
value of the row at that index. -/
theorem redact_correct_on_valid_positions (row : Row) (ps : List Nat)
    (hv : ∀ p ∈ ps, p < row.length) :
    ∃ r, redact row (ps.map (fun p => (p : Int))) = some r ∧
      r.length = row.length ∧
      (∀ i ∈ ps, r[i]? = some SENTINEL) ∧
      (∀ i : Nat, i ∉ ps → r[i]? = row[i]?) :=
  redact_spec_aux row ps hv

/-- Witness for C1 at the concrete row `["a", "b", "c"]` and positions `[1]`. -/
theorem redact_correct_on_valid_positions_witness :
    ∃ r, redact [Val.str "a", Val.str "b", Val.str "c"]
        (([1] : List Nat).map (fun p => (p : Int))) = some r ∧
      r.length = ([Val.str "a", Val.str "b", Val.str "c"] : Row).length ∧
      (∀ i ∈ ([1] : List Nat), r[i]? = some SENTINEL) ∧
      (∀ i : Nat, i ∉ ([1] : List Nat) →
        r[i]? = ([Val.str "a", Val.str "b", Val.str "c"] : Row)[i]?) :=
  redact_correct_on_valid_positions [Val.str "a", Val.str "b", Val.str "c"] [1]
    (by decide)

/-- Counterexample to C4 as stated: the position `-1` is negative, yet
`redact` does not signal an error on a row of length 1 — Python's negative
indexing silently redacts the last element instead. -/
theorem redact_negative_position_no_error_cex :
    redact [Val.null] [(-1 : Int)] = some [SENTINEL] ∧
    redact [Val.null] [(-1 : Int)] ≠ none := by
  constructor
  · decide
  · decide

/-- Claim C4 (amended): `redact(row, positions)` signals an error if and
only if some position is `≥ L` or `< -L` for the row length `L`; a negative
position in `[-L, -1]` is accepted and redacts the element at `L + i`. -/
theorem redact_error_iff_out_of_range (row : Row) (cs : List Int) :
    redact row cs = none ↔
      ∃ p ∈ cs, p < -(row.length : Int) ∨ (row.length : Int) ≤ p :=
  redact_none_iff row cs

/-- Witness for C4 (amended): position 5 on a row of length 1 errors. -/
theorem redact_error_iff_out_of_range_witness :
    redact [Val.null] [(5 : Int)] = none :=
  (redact_error_iff_out_of_range [Val.null] [5]).mpr
    ⟨5, by decide, by decide⟩

/-- Claim C8: `redact` is a pure function of its inputs (the embedding is
functional, so repeated calls agree definitionally), and applying it a
second time with the same positions to an already-redacted row returns that
row unchanged: `redact(redact(row, P), P) = redact(row, P)`. -/
theorem redact_idempotent (row : Row) (cs : List Int) (r : Row)
    (h : redact row cs = some r) :
    redact r cs = some r :=
  redact_idem_aux h

/-- Witness for C8: redacting `["x"]` at position 0 gives `[SENTINEL]`, and
redacting that output again at position 0 returns it unchanged. -/
theorem redact_idempotent_witness :
    redact [SENTINEL] [(0 : Int)] = some [SENTINEL] :=
  redact_idempotent [Val.str "x"] [0] [SENTINEL] (by decide)

/-- Claim C9: `call_process(cmd)` returns `True` iff the subprocess wrote
nothing to stderr; a process with non-zero exit status but empty stderr is
reported as success, and one with zero exit status but non-empty stderr is
reported as failure. -/
theorem call_process_ignores_exit_code :
    (∀ p : ProcResult, call_process p = true ↔ p.stderr = "") ∧
    (∀ (c : Int) (o : String), c ≠ 0 → call_process ⟨c, o, ""⟩ = true) ∧
    (∀ (o e : String), e ≠ "" → call_process ⟨0, o, e⟩ = false) := by
  refine ⟨?_, ?_, ?_⟩
  · intro p
    by_cases h : p.stderr = "" <;> simp [call_process, h]
  · intro c o _
    simp [call_process]
  · intro o e he
    simp [call_process, he]

/-- Witness for C9: exit status 3 with empty stderr reports success; exit
status 0 with non-empty stderr reports failure. -/
theorem call_process_ignores_exit_code_witness :
    call_process ⟨3, "", ""⟩ = true ∧ call_process ⟨0, "", "oops"⟩ = false :=
  ⟨call_process_ignores_exit_code.2.1 3 "" (by decide),
    call_process_ignores_exit_code.2.2 "" "oops" (by decide)⟩

/-- Claim C7: if `createdb` succeeded but the schema-only export
(`pg_dump`) fails, the run exits with status 1 after printing a
diagnostic, never opens a destination session, and performs no destination
side effect beyond the already-issued create-database call. -/
theorem schema_export_failfast (pCreate pDump pRestore : ProcResult)
    (hc : call_process pCreate = true) (hd : call_process pDump = false) :
    (setupPhase pCreate pDump pRestore).exitCode = some 1 ∧
    (setupPhase pCreate pDump pRestore).destOpened = false ∧
    (setupPhase pCreate pDump pRestore).effects.filter isDestEffect =
      [SetupStep.createdb] ∧
    (setupPhase pCreate pDump pRestore).prints ≠ [] := by
  simp [setupPhase, hc, hd, isDestEffect]

/-- Witness for C7: a clean `createdb` followed by a `pg_dump` that wrote
to stderr. -/
theorem schema_export_failfast_witness :
    (setupPhase ⟨0, "", ""⟩ ⟨1, "", "pg_dump: error"⟩ ⟨0, "", ""⟩).exitCode =
        some 1 ∧
    (setupPhase ⟨0, "", ""⟩ ⟨1, "", "pg_dump: error"⟩ ⟨0, "", ""⟩).destOpened =
        false ∧
    (setupPhase ⟨0, "", ""⟩ ⟨1, "", "pg_dump: error"⟩
        ⟨0, "", ""⟩).effects.filter isDestEffect = [SetupStep.createdb] ∧
    (setupPhase ⟨0, "", ""⟩ ⟨1, "", "pg_dump: error"⟩ ⟨0, "", ""⟩).prints ≠ [] :=
  schema_export_failfast ⟨0, "", ""⟩ ⟨1, "", "pg_dump: error"⟩ ⟨0, "", ""⟩
    (by decide) (by decide)

/-- Source database exhibiting the missing-reassignment bug: one `account`
row, no `address` rows, one `statement` row. -/
def dbC2 : ProdDB :=
  ⟨[[Val.str "id1", Val.str "John Doe"]], [], [[Val.str "s1"]]⟩

/-- Claim C2 evaluated at a failing input: with source `statement` row
`["s1"]`, the run completes, yet the row written to the destination
`statement` table is the stale redacted `account` row
`["id1", "REDACTED"]`, not the source row — the loop never assigns
`new_row` for `statement`. -/
theorem statement_table_not_copied_verbatim :
    (migrateCopy none dbC2).error = none ∧
    visibleRows (migrateCopy none dbC2) Tbl.statement =
      [[Val.str "id1", SENTINEL]] ∧
    dbC2.statement = [[Val.str "s1"]] ∧
    visibleRows (migrateCopy none dbC2) Tbl.statement ≠ dbC2.statement := by
  refine ⟨by decide, by decide, by decide, by decide⟩

/-- Source database for the failing-run counterexamples: one redactable
`account` row; the injected write failure on insert 0 aborts the run. -/
def dbC3 : ProdDB :=
  ⟨[[Val.str "acct-1", Val.str "Jane Doe"]], [], []⟩

/-- Counterexample to C3 as stated: a run whose table copy fails ends with
zero `commit()` calls and zero `rollback()` calls — the destination
transaction is neither committed nor rolled back, so it is not
"committed or rolled back exactly once". -/
theorem commit_rollback_exactly_once_cex :
    (migrateCopy (some 0) dbC3).error = some MigErr.writeError ∧
    (migrateCopy (some 0) dbC3).commits = 0 ∧
    (migrateCopy (some 0) dbC3).rollbacks = 0 := by
  refine ⟨by decide, by decide, by decide⟩

/-- Claim C3 (amended): if any table copy fails, the run issues neither
`commit()` nor an explicit `rollback()` — the uncommitted transaction is
simply abandoned — so no rows of any table are visible in the destination;
a run with no failure commits exactly once and never rolls back. -/
theorem commit_only_on_success (f : Option Nat) (db : ProdDB) :
    ((migrateCopy f db).error.isSome →
      (migrateCopy f db).commits = 0 ∧ (migrateCopy f db).rollbacks = 0 ∧
      ∀ t, visibleRows (migrateCopy f db) t = []) ∧
    ((migrateCopy f db).error = none →
      (migrateCopy f db).commits = 1 ∧ (migrateCopy f db).rollbacks = 0) := by
  rcases migrateCopy_cases f db with ⟨s, e, hr, hm⟩ | ⟨s, hr, hm⟩
  · rw [hm]
    constructor
    · intro _
      refine ⟨rfl, rfl, ?_⟩
      intro t
      simp [visibleRows]
    · intro hco
      simp at hco
  · rw [hm]
    constructor
    · intro hco
      simp at hco
    · intro _
      exact ⟨rfl, rfl⟩

/-- Witness for C3 (amended), failing branch: the aborted run of `dbC3`
leaves nothing visible in the `account` table and commits zero times. -/
theorem commit_only_on_success_witness :
    (migrateCopy (some 0) dbC3).commits = 0 ∧
    (migrateCopy (some 0) dbC3).rollbacks = 0 ∧
    ∀ t, visibleRows (migrateCopy (some 0) dbC3) t = [] :=
  (commit_only_on_success (some 0) dbC3).1 (by decide)

/-- Source database for the C5 counterexample: `account` and `address`
empty, one `statement` row — no read or write failure is injected, yet the
run dies with `NameError` before the first `statement` insert. -/
def dbC5 : ProdDB := ⟨[], [], [[Val.int 42]]⟩

/-- Counterexample to C5 as stated: `statement` has 1 source row and no
read/write failure occurs (`failAt = none`), yet zero rows are visible in
the destination — the run aborts with an unbound-variable error. -/
theorem row_count_conservation_cex :
    (migrateCopy none dbC5).error = some MigErr.nameError ∧
    visibleRows (migrateCopy none dbC5) Tbl.statement = [] ∧
    dbC5.statement.length = 1 := by
  refine ⟨by decide, by decide, by decide⟩

/-- Claim C5 (amended): if the whole run completes without any error
(no write failure, no redaction `IndexError`, no `NameError`), then each
destination table holds exactly as many visible rows after commit as its
source table; and after any failed (never-committed) run, zero rows are
visible. -/
theorem row_count_conservation_on_success (f : Option Nat) (db : ProdDB) :
    ((migrateCopy f db).error = none →
      ∀ t, (visibleRows (migrateCopy f db) t).length = (db.rowsOf t).length) ∧
    ((migrateCopy f db).error.isSome →
      ∀ t, visibleRows (migrateCopy f db) t = []) := by
  rcases migrateCopy_cases f db with ⟨s, e, hr, hm⟩ | ⟨s, hr, hm⟩
  · rw [hm]
    constructor
    · intro hco
      simp at hco
    · intro _ t
      simp [visibleRows]
  · rw [hm]
    constructor
    · intro _ t
      have hc := runCopy_counts hr t
      simp only [visibleRows, List.length_map]
      rw [if_neg (by decide)]
      rw [List.length_map]
      exact hc
    · intro hco
      simp at hco

/-- Source database on which the run succeeds end to end. -/
def dbOkRun : ProdDB :=
  ⟨[[Val.str "id1", Val.str "Jane Doe"]],
    [[Val.int 1, Val.int 99, Val.str "123 Main St"]],
    [[Val.str "s1"]]⟩

/-- Witness for C5 (amended): the successful run over `dbOkRun` puts
exactly one visible row in each destination table. -/
theorem row_count_conservation_on_success_witness :
    (visibleRows (migrateCopy none dbOkRun) Tbl.statement).length =
      (dbOkRun.rowsOf Tbl.statement).length :=
  (row_count_conservation_on_success none dbOkRun).1 (by decide) Tbl.statement

/-- Counterexample to C6 as stated: a run whose table copy fails exits by
exception before the `close()` calls, so neither the source nor the
destination session is released. -/
theorem sessions_closed_cex :
    (migrateCopy (some 0) dbC3).error.isSome = true ∧
    (migrateCopy (some 0) dbC3).srcClosed = false ∧
    (migrateCopy (some 0) dbC3).dstClosed = false := by
  refine ⟨by decide, by decide, by decide⟩

/-- Claim C6 (amended): the two sessions are closed exactly on the success
path; any exception during the copy loop propagates past the `close()`
calls and leaves both sessions open. -/
theorem sessions_closed_only_on_success (f : Option Nat) (db : ProdDB) :
    ((migrateCopy f db).error = none →
      (migrateCopy f db).srcClosed = true ∧
      (migrateCopy f db).dstClosed = true) ∧
    ((migrateCopy f db).error.isSome →
      (migrateCopy f db).srcClosed = false ∧
      (migrateCopy f db).dstClosed = false) := by
  rcases migrateCopy_cases f db with ⟨s, e, hr, hm⟩ | ⟨s, hr, hm⟩
  · rw [hm]
    exact ⟨fun hco => by simp at hco, fun _ => ⟨rfl, rfl⟩⟩
  · rw [hm]
    exact ⟨fun _ => ⟨rfl, rfl⟩, fun hco => by simp at hco⟩

/-- Witness for C6 (amended): the successful run over `dbOkRun` closes both
sessions. -/
theorem sessions_closed_only_on_success_witness :
    (migrateCopy none dbOkRun).srcClosed = true ∧
    (migrateCopy none dbOkRun).dstClosed = true :=
  (sessions_closed_only_on_success none dbOkRun).1 (by decide)

/-- Claim C10: while copying the `statement` table the loop variable
`new_row` is never reassigned; if `address` had at least one row and the
run completes, every row visible in the destination `statement` table is
the redaction of the last `address` row; and if `account` and `address`
are both empty while `statement` is not, the run raises the
unbound-variable error before any `statement` insert. -/
theorem statement_rows_equal_stale_carried_row :
    (∀ (f : Option Nat) (db : ProdDB) (lastRow : Row),
      db.address.getLast? = some lastRow →
      (migrateCopy f db).error = none →
      ∃ red, redact lastRow [2] = some red ∧
        visibleRows (migrateCopy f db) Tbl.statement =
          db.statement.map (fun _ => red)) ∧
    (∀ (f : Option Nat) (db : ProdDB),
      db.account = [] → db.address = [] → db.statement ≠ [] →
      (migrateCopy f db).error = some MigErr.nameError ∧
      (migrateCopy f db).trace = []) := by
  constructor
  · intro f db lastRow hlast herr
    rcases migrateCopy_cases f db with ⟨s, e, hr, hm⟩ | ⟨s, hr, hm⟩
    · rw [hm] at herr
      simp at herr
    · obtain ⟨s1, s2, h1, h2, h3⟩ := runCopy_ok hr
      obtain ⟨red, hred, hcar⟩ := (copyTable_address_carried h2).2 lastRow hlast
      obtain ⟨htr3, _⟩ := copyTable_statement_stale h3 hcar
      obtain ⟨e1, t1, l1, m1⟩ := copyTable_ok h1
      obtain ⟨e2, t2, l2, m2⟩ := copyTable_ok h2
      refine ⟨red, hred, ?_⟩
      rw [hm]
      simp only [visibleRows]
      rw [if_neg (by decide)]
      have hblock : ∀ p ∈ db.statement.map (fun _ => (Tbl.statement, red)),
          p.1 = Tbl.statement := by
        intro p hp
        obtain ⟨x, _, hx⟩ := List.mem_map.mp hp
        rw [← hx]
      rw [htr3, t2, t1]
      simp only [List.filter_append]
      rw [filter_label_ne m1 (by decide), filter_label_ne m2 (by decide),
        filter_label_all hblock]
      simp [List.map_map]
  · intro f db hacc haddr hst
    rcases hs : db.statement with _ | ⟨r, rest⟩
    · exact absurd hs hst
    · have hrun : migrateCopy f db =
          ⟨some MigErr.nameError, [], 0, 0, false, false⟩ := by
        unfold migrateCopy runCopy
        rw [hacc, haddr, hs]
        simp [copyTable, copyRow, newRowFor]
      rw [hrun]
      exact ⟨rfl, rfl⟩

/-- Source database for the C10 witness: no `account` rows, one `address`
row, two `statement` rows. -/
def dbC10 : ProdDB :=
  ⟨[], [[Val.int 1, Val.int 2, Val.str "123 Main St"]],
    [[Val.str "s1"], [Val.str "s2"]]⟩

/-- Witness for C10: both destination `statement` rows of the `dbC10` run
equal the redacted last `address` row. -/
theorem statement_rows_equal_stale_carried_row_witness :
    ∃ red, redact [Val.int 1, Val.int 2, Val.str "123 Main St"] [2] =
        some red ∧
      visibleRows (migrateCopy none dbC10) Tbl.statement =
        dbC10.statement.map (fun _ => red) :=
  statement_rows_equal_stale_carried_row.1 none dbC10
    [Val.int 1, Val.int 2, Val.str "123 Main St"] (by decide) (by decide)
